import Mathlib

/-!
Shallow embedding of the version-affectedness classification engine of the
pan-os-cdss-certificate-registration repository (Go), together with proofs
about it.

The embedding covers, faithfully to the Go source:
  - strconv.Atoi-style integer parsing (optional sign, decimal digits),
  - strings.Split on "." and on "-h",
  - ParseVersion (src/utils/version.go),
  - the MinimumPatchedVersions patch table (src/config, identical data also
    in src/utils/version.go),
  - IsAffectedVersion in its three-result revision
    (src/utils/version.go lines 488-528): (affected, minimumUpdateRelease, error),
  - SplitDevices (src/utils/version.go lines 530-552),
  - AffectedFamilies / UnaffectedFamilies (src/config/platforms.go) and
    IsAffectedFamily (utils/filters/family.go).

Go strings are modelled as Lean String; the character-level workers act on
List Char (the .data field).  Go ints are modelled as Int, with
strconv.Atoi's 64-bit int range explicitly modelled: atoiFull returns the
int together with the success flag, yielding 0 on an invalid numeral and
the clamped bound on an out-of-range one, exactly as Atoi's ErrSyntax and
ErrRange paths do.  Go's map[string]string device records are modelled as
association lists with first-match lookup and zero-value "" default, which
is the observable semantics of Go map indexing.
-/

namespace PanosCdss

/-- Decimal digit character for a digit value, as produced by fmt's %d verb. -/
def digitChar (d : Nat) : Char := Char.ofNat (48 + d)

/-- Digits of a natural number, least significant first, driven by fuel.
Fuel n+1 always suffices for the number n. -/
def digitsRevAux : Nat → Nat → List Char
  | 0, _ => []
  | fuel + 1, n =>
    if n < 10 then [digitChar n]
    else digitChar (n % 10) :: digitsRevAux fuel (n / 10)

/-- Decimal digit list (most significant first) of a natural number,
as printed by Go's fmt %d verb for non-negative values. -/
def natDigits (n : Nat) : List Char := (digitsRevAux (n + 1) n).reverse

/-- Character list printed by Go's fmt %d verb for an int:
an optional leading minus sign followed by the decimal digits. -/
def intChars (m : Int) : List Char :=
  if m < 0 then '-' :: natDigits (-m).toNat else natDigits m.toNat

/-- String printed by Go's fmt %d verb for an int. -/
def intStr (m : Int) : String := String.mk (intChars m)

/-- Numeric value of a digit character. -/
def digitVal (c : Char) : Nat := c.toNat - 48

/-- Value of a most-significant-first digit list, as accumulated by a
decimal parser. -/
def digitsVal (l : List Char) : Nat :=
  l.foldl (fun a c => a * 10 + digitVal c) 0

/-- Parser for an unsigned decimal numeral: requires a non-empty,
all-digit character list, as Go's strconv does after stripping the sign. -/
def parseNatChars (l : List Char) : Option Nat :=
  if l ≠ [] ∧ l.all Char.isDigit then some (digitsVal l) else none

/-- Largest value of Go's 64-bit int (math.MaxInt64). -/
def maxGoInt : Int := 9223372036854775807

/-- Smallest value of Go's 64-bit int (math.MinInt64). -/
def minGoInt : Int := -9223372036854775808

/-- Model of Go's strconv.Atoi on a character list, returning the int and
the success flag (err == nil): an optional single leading sign followed by
at least one decimal digit.  An invalid numeral yields (0, false)
(ErrSyntax: Atoi returns 0 and a non-nil error); a numeral outside the
64-bit int range yields the nearest bound with false (ErrRange: Atoi
returns math.MaxInt64 or math.MinInt64 and a non-nil error); otherwise the
value with true. -/
def atoiFull : List Char → Int × Bool
  | [] => (0, false)
  | c :: rest =>
    if c = '-' then
      match parseNatChars rest with
      | some n => if (n : Int) > 9223372036854775808 then (minGoInt, false) else (-(n : Int), true)
      | none => (0, false)
    else if c = '+' then
      match parseNatChars rest with
      | some n => if (n : Int) > maxGoInt then (maxGoInt, false) else ((n : Int), true)
      | none => (0, false)
    else
      match parseNatChars (c :: rest) with
      | some n => if (n : Int) > maxGoInt then (maxGoInt, false) else ((n : Int), true)
      | none => (0, false)

/-- Successful results of Go's strconv.Atoi on a character list: some value
exactly when Atoi returns a nil error. -/
def atoiChars (l : List Char) : Option Int :=
  if (atoiFull l).2 then some (atoiFull l).1 else none

/-- Model of Go's strconv.Atoi on a string, keeping only success. -/
def atoi (s : String) : Option Int := atoiChars s.data

/-- Syntactic test for a Go decimal numeral: an optional single sign
followed by at least one decimal digit.  Exactly the inputs on which Atoi
does not raise ErrSyntax. -/
def isGoNumeral : List Char → Bool
  | [] => false
  | c :: rest =>
    if c = '-' ∨ c = '+' then !rest.isEmpty && rest.all Char.isDigit
    else !(c :: rest).isEmpty && (c :: rest).all Char.isDigit

/-- Model of strings.Split(s, ".") at the character level. -/
def splitDotChars : List Char → List (List Char)
  | [] => [[]]
  | c :: rest =>
    let r := splitDotChars rest
    if c = '.' then [] :: r else (c :: r.headD []) :: r.tail

/-- Model of strings.Split(s, "-h") at the character level: cuts at each
leftmost non-overlapping occurrence of the two-character separator. -/
def splitDashHChars : List Char → List (List Char)
  | [] => [[]]
  | [c] => [[c]]
  | c₁ :: c₂ :: rest =>
    if c₁ = '-' ∧ c₂ = 'h' then [] :: splitDashHChars rest
    else (c₁ :: (splitDashHChars (c₂ :: rest)).headD []) :: (splitDashHChars (c₂ :: rest)).tail

/-- Version represents a PAN-OS version (struct Version of
src/utils/version.go).  Fields are Go ints, hence Int. -/
structure Version where
  Major : Int
  Feature : Int
  Maintenance : Int
  Hotfix : Int
deriving DecidableEq, Repr

/-- ParseVersion of src/utils/version.go at the character level: split on
".", require at least three parts, Atoi the first two, split the third on
"-h", Atoi the maintenance part and, when present, the hotfix part
(defaulting the hotfix to 0).  A Go error is modelled as none. -/
def ParseVersionChars (l : List Char) : Option Version :=
  let parts := splitDotChars l
  if parts.length < 3 then none
  else
    match atoiChars (parts.getD 0 []) with
    | none => none
    | some major =>
      match atoiChars (parts.getD 1 []) with
      | none => none
      | some feature =>
        let maintenanceHotfix := splitDashHChars (parts.getD 2 [])
        match atoiChars (maintenanceHotfix.getD 0 []) with
        | none => none
        | some maintenance =>
          if maintenanceHotfix.length > 1 then
            match atoiChars (maintenanceHotfix.getD 1 []) with
            | none => none
            | some hotfix => some ⟨major, feature, maintenance, hotfix⟩
          else some ⟨major, feature, maintenance, 0⟩

/-- ParseVersion of src/utils/version.go on a string. -/
def ParseVersion (s : String) : Option Version := ParseVersionChars s.data

example : ParseVersion "10.1.6-h3" = some ⟨10, 1, 6, 3⟩ := by decide
example : ParseVersion "10.1.6" = some ⟨10, 1, 6, 0⟩ := by decide
example : ParseVersion "10.1" = none := by decide
example : ParseVersion "a.1.6" = none := by decide
example : ParseVersion "10.b.6" = none := by decide
example : ParseVersion "10.1.c" = none := by decide
example : ParseVersion "10.1.6-hd" = none := by decide
example : ParseVersion "-1.0.0" = some ⟨-1, 0, 0, 0⟩ := by decide

/-- Decidable equality for Except results, used to evaluate the classifier
on concrete devices. -/
instance {ε α : Type} [DecidableEq ε] [DecidableEq α] : DecidableEq (Except ε α) := fun x y =>
  match x, y with
  | .ok a, .ok b =>
    if h : a = b then isTrue (by rw [h]) else isFalse (fun hc => h (Except.ok.inj hc))
  | .error a, .error b =>
    if h : a = b then isTrue (by rw [h]) else isFalse (fun hc => h (Except.error.inj hc))
  | .ok _, .error _ => isFalse (fun hc => Except.noConfusion hc)
  | .error _, .ok _ => isFalse (fun hc => Except.noConfusion hc)

/-- MinimumPatchedVersion represents the minimum patched version for a
specific release (src/config).  Fields are Go ints. -/
structure MinimumPatchedVersion where
  Maintenance : Int
  Hotfix : Int
deriving DecidableEq, Repr

/-- MinimumPatchedVersions represents the minimum patched versions for each
PAN-OS feature release (src/config, var MinimumPatchedVersions).  The Go
map literal is modelled as an association list with its keys. -/
def MinimumPatchedVersions : List (String × List MinimumPatchedVersion) :=
  [ ("8.1", [⟨21, 3⟩, ⟨25, 3⟩, ⟨26, 0⟩]),
    ("9.0", [⟨16, 7⟩, ⟨17, 5⟩]),
    ("9.1", [⟨11, 5⟩, ⟨12, 7⟩, ⟨13, 5⟩, ⟨14, 8⟩, ⟨16, 5⟩, ⟨17, 0⟩]),
    ("10.0", [⟨8, 8⟩, ⟨11, 4⟩, ⟨12, 5⟩]),
    ("10.1", [⟨3, 3⟩, ⟨4, 6⟩, ⟨5, 4⟩, ⟨6, 8⟩, ⟨7, 1⟩, ⟨8, 7⟩, ⟨9, 8⟩, ⟨10, 5⟩, ⟨11, 5⟩, ⟨12, 0⟩]),
    ("10.2", [⟨0, 2⟩, ⟨1, 1⟩, ⟨2, 4⟩, ⟨3, 12⟩, ⟨4, 10⟩, ⟨6, 1⟩, ⟨7, 3⟩, ⟨8, 0⟩]),
    ("10.2-gp", [⟨0, 3⟩, ⟨1, 2⟩, ⟨2, 5⟩, ⟨3, 13⟩, ⟨4, 16⟩, ⟨5, 6⟩, ⟨6, 3⟩, ⟨7, 8⟩, ⟨8, 3⟩, ⟨9, 1⟩]),
    ("11.0", [⟨0, 2⟩, ⟨1, 3⟩, ⟨2, 3⟩, ⟨3, 3⟩, ⟨4, 0⟩]),
    ("11.0-gp", [⟨0, 3⟩, ⟨1, 4⟩, ⟨2, 4⟩, ⟨3, 10⟩, ⟨4, 1⟩]),
    ("11.1", [⟨0, 2⟩, ⟨1, 0⟩]),
    ("11.1-gp", [⟨0, 3⟩, ⟨1, 1⟩, ⟨2, 3⟩]) ]

/-- Lookup of a key in the patch table, modelling Go's
`minVersions, ok := config.MinimumPatchedVersions[featureRelease]`. -/
def lookupMPV (key : String) : Option (List MinimumPatchedVersion) :=
  (MinimumPatchedVersions.find? (fun p => p.1 = key)).map Prod.snd

/-- Device record: Go's map[string]string, modelled as an association list
with first-match lookup. -/
abbrev Device := List (String × String)

/-- Indexing a Go string map: the value of the first matching key, or the
zero value "" when the key is absent. -/
def lookupD (d : Device) (k : String) : String :=
  ((d.find? (fun p => p.1 = k)).map Prod.snd).getD ""

/-- Go's `x, _ := strconv.Atoi(s)`: the int Atoi returns with its error
discarded — the parsed value on success, 0 on ErrSyntax, the clamped bound
on ErrRange. -/
def atoiOr0 (s : String) : Int := (atoiFull s.data).1

/-- Feature-release lookup key as constructed by IsAffectedVersion:
fmt.Sprintf("%d.%d", major, feature), with "-gp" appended when
isGlobalProtect is set and the key is one of the three GlobalProtect
trains. -/
def featureReleaseKey (major feature : Int) (isGlobalProtect : Bool) : String :=
  let base := intStr major ++ "." ++ intStr feature
  if isGlobalProtect ∧ (base = "10.2" ∨ base = "11.0" ∨ base = "11.1") then base ++ "-gp"
  else base

/-- Scan of the minVersions sequence in IsAffectedVersion
(src/utils/version.go lines 520-526): the first entry with
maintenance strictly above the device's, or with equal maintenance and
hotfix strictly above the device's, yields affected with the formatted
minimum update release; exhaustion yields not affected (none). -/
def scanMPV (key : String) (maintenance hotfix : Int) :
    List MinimumPatchedVersion → Option String
  | [] => none
  | mv :: rest =>
    if maintenance < mv.Maintenance ∨ (maintenance = mv.Maintenance ∧ hotfix < mv.Hotfix) then
      some (key ++ "." ++ intStr mv.Maintenance ++ "-h" ++ intStr mv.Hotfix)
    else scanMPV key maintenance hotfix rest

/-- Major component of a device record, as read by IsAffectedVersion:
Atoi of the attribute with the error discarded. -/
def deviceMajor (device : Device) : Int := atoiOr0 (lookupD device "parsed_version_major")

/-- Feature component of a device record, as read by IsAffectedVersion. -/
def deviceFeature (device : Device) : Int := atoiOr0 (lookupD device "parsed_version_feature")

/-- Maintenance component of a device record, as read by IsAffectedVersion. -/
def deviceMaintenance (device : Device) : Int :=
  atoiOr0 (lookupD device "parsed_version_maintenance")

/-- Hotfix component of a device record, as read by IsAffectedVersion. -/
def deviceHotfix (device : Device) : Int := atoiOr0 (lookupD device "parsed_version_hotfix")

/-- IsAffectedVersion (src/utils/version.go lines 488-528, the revision
returning (bool, string, error)).  The result is ok (affected,
minimumUpdateRelease) or the Go error string. -/
def IsAffectedVersion (device : Device) (isGlobalProtect : Bool) :
    Except String (Bool × String) :=
  let major := deviceMajor device
  let feature := deviceFeature device
  let maintenance := deviceMaintenance device
  let hotfix := deviceHotfix device
  if major > 11 ∨ (major = 11 ∧ feature ≥ 2) then .ok (false, "")
  else
    let featureRelease := featureReleaseKey major feature isGlobalProtect
    match lookupMPV featureRelease with
    | none =>
      if major < 8 ∨ (major = 8 ∧ feature < 1) then .ok (true, "8.1.0")
      else .error ("unknown feature release: " ++ featureRelease)
    | some minVersions =>
      match scanMPV featureRelease maintenance hotfix minVersions with
      | some minUpdateRelease => .ok (true, minUpdateRelease)
      | none => .ok (false, "")

/-- Copy-and-annotate of a device record: Go's fresh-map copy followed by
one key assignment.  On an association list with first-match lookup,
prepending the binding realizes exactly that map. -/
def setKeyD (d : Device) (k v : String) : Device := (k, v) :: d

/-- Loop body of SplitDevices (src/utils/version.go lines 530-552) with
the two accumulated partitions; the Go named results start at nil and an
error returns nil, nil, err. -/
def splitDevicesGo (accAffected accUnaffected : List Device) :
    List Device → List Device × List Device × Option String
  | [] => (accAffected, accUnaffected, none)
  | device :: rest =>
    match IsAffectedVersion device false with
    | .error e =>
      ([], [], some ("error checking device " ++ lookupD device "hostname" ++ ": " ++ e))
    | .ok (isAffected, minUpdateRelease) =>
      if isAffected then
        splitDevicesGo (accAffected ++ [setKeyD device "minimumUpdateRelease" minUpdateRelease])
          accUnaffected rest
      else
        splitDevicesGo accAffected
          (accUnaffected ++ [setKeyD device "result" "Not affected"]) rest

/-- SplitDevices (src/utils/version.go lines 530-552): partitions a device
list into affected and unaffected annotated copies, or aborts with the
first per-device error and nil partitions. -/
def SplitDevices (deviceList : List Device) : List Device × List Device × Option String :=
  splitDevicesGo [] [] deviceList

/-- AffectedFamilies (src/config/platforms.go). -/
def AffectedFamilies : List (String × List String) :=
  [ ("200", ["PA-200"]),
    ("220", ["PA-220", "PA-220-ZTP", "PA-220R", "PA-220R-ZTP"]),
    ("3000", ["PA-3020", "PA-3050", "PA-3060"]),
    ("3200", ["PA-3220", "PA-3220-ZTP", "PA-3250", "PA-3250-ZTP", "PA-3260"]),
    ("500", ["PA-500"]),
    ("5000", ["PA-5020", "PA-5050", "PA-5060"]),
    ("5200", ["PA-5220", "PA-5250", "PA-5260", "PA-5280"]),
    ("7000", ["PA-7050", "PA-7080"]),
    ("7000b", ["PA-7050", "PA-7080"]),
    ("800", ["PA-820", "PA-820-ZTP", "PA-850", "PA-850-ZTP"]),
    ("vm", ["PA-VM", "PA-VM (lite)"]),
    ("vmarm", ["PA-VMARM"]) ]

/-- UnaffectedFamilies (src/config/platforms.go). -/
def UnaffectedFamilies : List (String × List String) :=
  [ ("400", ["PA-410", "PA-415", "PA-415-5G", "PA-440", "PA-445", "PA-450", "PA-450R", "PA-460"]),
    ("1400", ["PA-1410", "PA-1420"]),
    ("3400", ["PA-3410", "PA-3420", "PA-3430", "PA-3440"]),
    ("5400", ["PA-5450"]),
    ("5400f", ["PA-5410", "PA-5420", "PA-5430", "PA-5440", "PA-5445"]),
    ("7500", ["PA-7500"]) ]

/-- Lookup of a family code in a family table (Go map indexing with ok). -/
def lookupFam (table : List (String × List String)) (family : String) :
    Option (List String) :=
  (table.find? (fun p => p.1 = family)).map Prod.snd

/-- IsAffectedFamily (utils/filters/family.go): true iff the family code is
in AffectedFamilies and the model is in that family's list. -/
def IsAffectedFamily (family model : String) : Bool :=
  match lookupFam AffectedFamilies family with
  | some affectedModels => affectedModels.contains model
  | none => false

/-! Lemmas about the decimal printer and parser. -/

/-- Value of a least-significant-first digit list. -/
def valLSD : List Char → Nat
  | [] => 0
  | c :: r => digitVal c + 10 * valLSD r

theorem digitVal_digitChar {d : Nat} (hd : d < 10) : digitVal (digitChar d) = d := by
  interval_cases d <;> decide

theorem isDigit_digitChar {d : Nat} (hd : d < 10) : (digitChar d).isDigit = true := by
  interval_cases d <;> decide

theorem mem_digitsRevAux {f n : Nat} {c : Char} (h : c ∈ digitsRevAux f n) :
    ∃ d, d < 10 ∧ c = digitChar d := by
  induction f generalizing n with
  | zero => simp [digitsRevAux] at h
  | succ f ih =>
    rw [digitsRevAux] at h
    by_cases h10 : n < 10
    · rw [if_pos h10] at h
      simp only [List.mem_singleton] at h
      exact ⟨n, h10, h⟩
    · rw [if_neg h10] at h
      rcases List.mem_cons.mp h with h | h
      · exact ⟨n % 10, Nat.mod_lt _ (by norm_num), h⟩
      · exact ih h

theorem digitsRevAux_ne_nil {f n : Nat} (h : 0 < f) : digitsRevAux f n ≠ [] := by
  cases f with
  | zero => omega
  | succ f =>
    rw [digitsRevAux]
    by_cases h10 : n < 10
    · rw [if_pos h10]; simp
    · rw [if_neg h10]; simp

theorem valLSD_digitsRevAux : ∀ f n, n < f → valLSD (digitsRevAux f n) = n := by
  intro f
  induction f with
  | zero => intro n hn; omega
  | succ f ih =>
    intro n hn
    rw [digitsRevAux]
    by_cases h10 : n < 10
    · rw [if_pos h10]
      simp [valLSD, digitVal_digitChar h10]
    · rw [if_neg h10]
      have hdiv : n / 10 < n := Nat.div_lt_self (by omega) (by norm_num)
      rw [valLSD, digitVal_digitChar (Nat.mod_lt _ (by norm_num)), ih (n / 10) (by omega)]
      omega

theorem digitsVal_reverse (l : List Char) : digitsVal l.reverse = valLSD l := by
  rw [digitsVal, List.foldl_reverse]
  induction l with
  | nil => rfl
  | cons c r ih => rw [List.foldr_cons, ih, valLSD]; omega

theorem natDigits_ne_nil (n : Nat) : natDigits n ≠ [] := by
  rw [natDigits, ne_eq, List.reverse_eq_nil_iff]
  exact digitsRevAux_ne_nil (by omega)

theorem mem_natDigits {n : Nat} {c : Char} (h : c ∈ natDigits n) :
    ∃ d, d < 10 ∧ c = digitChar d := by
  rw [natDigits, List.mem_reverse] at h
  exact mem_digitsRevAux h

theorem isDigit_of_mem_natDigits {n : Nat} {c : Char} (h : c ∈ natDigits n) :
    c.isDigit = true := by
  obtain ⟨d, hd, rfl⟩ := mem_natDigits h
  exact isDigit_digitChar hd

theorem digitsVal_natDigits (n : Nat) : digitsVal (natDigits n) = n := by
  rw [natDigits, digitsVal_reverse]
  exact valLSD_digitsRevAux (n + 1) n (by omega)

theorem parseNatChars_natDigits (n : Nat) : parseNatChars (natDigits n) = some n := by
  rw [parseNatChars, if_pos, digitsVal_natDigits]
  exact ⟨natDigits_ne_nil n, List.all_eq_true.mpr fun c hc => isDigit_of_mem_natDigits hc⟩

theorem ne_of_isDigit {c x : Char} (h : c.isDigit = true) (hx : x.isDigit = false) : c ≠ x := by
  intro hc
  rw [hc, hx] at h
  exact Bool.false_ne_true h

theorem atoiFull_not_numeral : ∀ l : List Char, isGoNumeral l = false → (atoiFull l).1 = 0
  | [], _ => rfl
  | c :: rest, h => by
    rw [isGoNumeral] at h
    by_cases hs : c = '-' ∨ c = '+'
    · rw [if_pos hs] at h
      have hp : parseNatChars rest = none := by
        rw [parseNatChars, if_neg]
        rintro ⟨hne, hall⟩
        simp [hall, List.isEmpty_iff] at h
        exact hne h
      rcases hs with rfl | rfl
      · rw [atoiFull, if_pos rfl, hp]
      · rw [atoiFull, if_neg (by decide), if_pos rfl, hp]
    · rw [if_neg hs] at h
      have hp : parseNatChars (c :: rest) = none := by
        rw [parseNatChars, if_neg]
        rintro ⟨-, hall⟩
        simp [hall] at h
      have hc1 : ¬c = '-' := fun hc => hs (Or.inl hc)
      have hc2 : ¬c = '+' := fun hc => hs (Or.inr hc)
      rw [atoiFull, if_neg hc1, if_neg hc2, hp]

theorem atoiFull_natDigits (n : Nat) (hn : (n : Int) ≤ maxGoInt) :
    atoiFull (natDigits n) = ((n : Int), true) := by
  obtain ⟨c, rest, hcr⟩ : ∃ c rest, natDigits n = c :: rest := by
    cases h : natDigits n with
    | nil => exact absurd h (natDigits_ne_nil n)
    | cons c rest => exact ⟨c, rest, rfl⟩
  have hdig : c.isDigit = true := isDigit_of_mem_natDigits (hcr ▸ List.mem_cons_self c rest)
  have hp : parseNatChars (c :: rest) = some n := hcr ▸ parseNatChars_natDigits n
  rw [hcr, atoiFull, if_neg (ne_of_isDigit hdig (by decide)),
    if_neg (ne_of_isDigit hdig (by decide)), hp]
  show (if (n : Int) > maxGoInt then ((maxGoInt : Int), false) else ((n : Int), true)) =
    ((n : Int), true)
  rw [if_neg (by omega)]

theorem atoiFull_intChars (m : Int) (h1 : minGoInt ≤ m) (h2 : m ≤ maxGoInt) :
    atoiFull (intChars m) = (m, true) := by
  rw [intChars]
  by_cases hm : m < 0
  · have htn : (((-m).toNat : Nat) : Int) = -m := Int.toNat_of_nonneg (by omega)
    have h1' : -9223372036854775808 ≤ m := h1
    rw [if_pos hm, atoiFull, if_pos rfl, parseNatChars_natDigits]
    show (if (((-m).toNat : Nat) : Int) > 9223372036854775808 then (minGoInt, false)
      else (-(((-m).toNat : Nat) : Int), true)) = (m, true)
    rw [htn, if_neg (by omega), neg_neg]
  · rw [if_neg hm]
    rw [atoiFull_natDigits m.toNat (by omega)]
    rw [Int.toNat_of_nonneg (by omega)]

theorem atoiChars_intChars (m : Int) (h1 : minGoInt ≤ m) (h2 : m ≤ maxGoInt) :
    atoiChars (intChars m) = some m := by
  rw [atoiChars, atoiFull_intChars m h1 h2, if_pos rfl]

theorem intChars_mem {m : Int} {c : Char} (h : c ∈ intChars m) :
    c.isDigit = true ∨ c = '-' := by
  rw [intChars] at h
  by_cases hm : m < 0
  · rw [if_pos hm] at h
    rcases List.mem_cons.mp h with h | h
    · exact Or.inr h
    · exact Or.inl (isDigit_of_mem_natDigits h)
  · rw [if_neg hm] at h
    exact Or.inl (isDigit_of_mem_natDigits h)

theorem dot_not_mem_intChars (m : Int) : '.' ∉ intChars m := by
  intro h
  rcases intChars_mem h with h | h
  · exact absurd h (by decide)
  · exact absurd h (by decide)

theorem intChars_ne_nil (m : Int) : intChars m ≠ [] := by
  rw [intChars]
  by_cases hm : m < 0
  · rw [if_pos hm]; simp
  · rw [if_neg hm]; exact natDigits_ne_nil _

/-! Lemmas about the split functions. -/

theorem splitDotChars_ne_nil (l : List Char) : splitDotChars l ≠ [] := by
  cases l with
  | nil => simp [splitDotChars]
  | cons c rest =>
    rw [splitDotChars]
    by_cases h : c = '.'
    · simp [h]
    · simp [h]

theorem splitDotChars_of_not_mem {x : List Char} (h : '.' ∉ x) : splitDotChars x = [x] := by
  induction x with
  | nil => rfl
  | cons c rest ih =>
    have hc : ¬c = '.' := fun hc => h (hc ▸ List.mem_cons_self c rest)
    have hrest : '.' ∉ rest := fun hr => h (List.mem_cons_of_mem c hr)
    rw [splitDotChars]
    simp only [if_neg hc, ih hrest]
    rfl

theorem splitDotChars_append {x : List Char} (y : List Char) (h : '.' ∉ x) :
    splitDotChars (x ++ '.' :: y) = x :: splitDotChars y := by
  induction x with
  | nil => simp [splitDotChars]
  | cons c rest ih =>
    have hc : ¬c = '.' := fun hc => h (hc ▸ List.mem_cons_self c rest)
    have hrest : '.' ∉ rest := fun hr => h (List.mem_cons_of_mem c hr)
    rw [List.cons_append, splitDotChars]
    simp only [if_neg hc, ih hrest]
    rfl

/-- Occurrence test for the two-character separator "-h". -/
def hasDashH : List Char → Bool
  | [] => false
  | [_] => false
  | c₁ :: c₂ :: rest => if c₁ = '-' ∧ c₂ = 'h' then true else hasDashH (c₂ :: rest)

theorem hasDashH_of_forall {x : List Char} (h : ∀ c ∈ x, c.isDigit = true) :
    hasDashH x = false := by
  induction x with
  | nil => rfl
  | cons c rest ih =>
    cases rest with
    | nil => rfl
    | cons c₂ rest₂ =>
      rw [hasDashH, if_neg]
      · exact ih fun a ha => h a (List.mem_cons_of_mem c ha)
      · rintro ⟨hc, -⟩
        exact ne_of_isDigit (h c (List.mem_cons_self _ _)) (by decide) hc

theorem hasDashH_intChars (m : Int) : hasDashH (intChars m) = false := by
  rw [intChars]
  by_cases hm : m < 0
  · rw [if_pos hm]
    obtain ⟨c, rest, hcr⟩ : ∃ c rest, natDigits (-m).toNat = c :: rest := by
      cases h : natDigits (-m).toNat with
      | nil => exact absurd h (natDigits_ne_nil _)
      | cons c rest => exact ⟨c, rest, rfl⟩
    rw [hcr, hasDashH, if_neg]
    · rw [← hcr]
      exact hasDashH_of_forall fun c hc => isDigit_of_mem_natDigits hc
    · rintro ⟨-, hc⟩
      exact ne_of_isDigit (isDigit_of_mem_natDigits (hcr ▸ List.mem_cons_self c rest))
        (by decide) hc
  · rw [if_neg hm]
    exact hasDashH_of_forall fun c hc => isDigit_of_mem_natDigits hc

theorem splitDashHChars_of_not : ∀ (x : List Char), hasDashH x = false → splitDashHChars x = [x]
  | [], _ => rfl
  | [c], _ => rfl
  | c₁ :: c₂ :: rest, h => by
    rw [hasDashH] at h
    have hcond : ¬(c₁ = '-' ∧ c₂ = 'h') := by
      intro hc
      rw [if_pos hc] at h
      exact absurd h (by decide)
    rw [if_neg hcond] at h
    rw [splitDashHChars, if_neg hcond, splitDashHChars_of_not (c₂ :: rest) h]
    rfl

theorem splitDashHChars_append : ∀ (x y : List Char), hasDashH x = false →
    splitDashHChars (x ++ '-' :: 'h' :: y) = x :: splitDashHChars y
  | [], y, _ => by rw [List.nil_append, splitDashHChars, if_pos ⟨rfl, rfl⟩]
  | [c], y, _ => by
    rw [List.cons_append, List.nil_append, splitDashHChars,
      if_neg (by rintro ⟨-, h2⟩; exact absurd h2 (by decide)),
      splitDashHChars, if_pos ⟨rfl, rfl⟩]
    rfl
  | c₁ :: c₂ :: rest, y, h => by
    rw [hasDashH] at h
    have hcond : ¬(c₁ = '-' ∧ c₂ = 'h') := by
      intro hc
      rw [if_pos hc] at h
      exact absurd h (by decide)
    rw [if_neg hcond] at h
    rw [List.cons_append, List.cons_append, splitDashHChars, if_neg hcond]
    rw [show c₂ :: (rest ++ '-' :: 'h' :: y) = (c₂ :: rest) ++ '-' :: 'h' :: y from rfl,
      splitDashHChars_append (c₂ :: rest) y h]
    rfl

/-! Round trip: formatting a version tuple and parsing it back. -/

theorem splitDot_format (a b : Int) (t : List Char) (ht : '.' ∉ t) :
    splitDotChars (intChars a ++ '.' :: (intChars b ++ '.' :: t)) =
      [intChars a, intChars b, t] := by
  rw [splitDotChars_append _ (dot_not_mem_intChars a),
    splitDotChars_append _ (dot_not_mem_intChars b), splitDotChars_of_not_mem ht]

theorem dot_not_mem_maintHotfix (c d : Int) : '.' ∉ intChars c ++ '-' :: 'h' :: intChars d := by
  intro h
  rcases List.mem_append.mp h with h | h
  · exact dot_not_mem_intChars c h
  · rcases List.mem_cons.mp h with h | h
    · exact absurd h (by decide)
    · rcases List.mem_cons.mp h with h | h
      · exact absurd h (by decide)
      · exact dot_not_mem_intChars d h

theorem parseVersionChars_format (a b c d : Int)
    (ha1 : minGoInt ≤ a) (ha2 : a ≤ maxGoInt) (hb1 : minGoInt ≤ b) (hb2 : b ≤ maxGoInt)
    (hc1 : minGoInt ≤ c) (hc2 : c ≤ maxGoInt) (hd1 : minGoInt ≤ d) (hd2 : d ≤ maxGoInt) :
    ParseVersionChars
      (intChars a ++ '.' :: (intChars b ++ '.' :: (intChars c ++ '-' :: 'h' :: intChars d))) =
      some ⟨a, b, c, d⟩ := by
  rw [ParseVersionChars]
  rw [splitDot_format a b _ (dot_not_mem_maintHotfix c d)]
  simp only [List.length_cons, List.length_nil, List.getD_cons_zero, List.getD_cons_succ,
    atoiChars_intChars a ha1 ha2, atoiChars_intChars b hb1 hb2,
    splitDashHChars_append _ _ (hasDashH_intChars c),
    splitDashHChars_of_not _ (hasDashH_intChars d),
    atoiChars_intChars c hc1 hc2, atoiChars_intChars d hd1 hd2]
  norm_num

/-- Formatted version string, fmt.Sprintf("%d.%d.%d-h%d", a, b, c, d). -/
def formatVersion (a b c d : Int) : String :=
  intStr a ++ "." ++ intStr b ++ "." ++ intStr c ++ "-h" ++ intStr d

theorem formatVersion_data (a b c d : Int) :
    (formatVersion a b c d).data =
      intChars a ++ '.' :: (intChars b ++ '.' :: (intChars c ++ '-' :: 'h' :: intChars d)) := by
  simp [formatVersion, intStr, String.data_append]

theorem parseVersion_formatVersion (a b c d : Int)
    (ha1 : minGoInt ≤ a) (ha2 : a ≤ maxGoInt) (hb1 : minGoInt ≤ b) (hb2 : b ≤ maxGoInt)
    (hc1 : minGoInt ≤ c) (hc2 : c ≤ maxGoInt) (hd1 : minGoInt ≤ d) (hd2 : d ≤ maxGoInt) :
    ParseVersion (formatVersion a b c d) = some ⟨a, b, c, d⟩ := by
  rw [ParseVersion, formatVersion_data]
  exact parseVersionChars_format a b c d ha1 ha2 hb1 hb2 hc1 hc2 hd1 hd2

/-! Injectivity of the feature-release key construction. -/

theorem natDigits_inj {n n' : Nat} (h : natDigits n = natDigits n') : n = n' := by
  have h1 := digitsVal_natDigits n
  rw [h, digitsVal_natDigits] at h1
  exact h1.symm

theorem intChars_inj {m m' : Int} (h : intChars m = intChars m') : m = m' := by
  rw [intChars, intChars] at h
  by_cases hm : m < 0 <;> by_cases hm' : m' < 0
  · rw [if_pos hm, if_pos hm'] at h
    obtain ⟨-, h2⟩ := List.cons.inj h
    have := natDigits_inj h2
    omega
  · rw [if_pos hm, if_neg hm'] at h
    have hmem : ('-' : Char) ∈ natDigits m'.toNat := by
      rw [← h]
      exact List.mem_cons_self _ _
    exact absurd (isDigit_of_mem_natDigits hmem) (by decide)
  · rw [if_neg hm, if_pos hm'] at h
    have hmem : ('-' : Char) ∈ natDigits m.toNat := by
      rw [h]
      exact List.mem_cons_self _ _
    exact absurd (isDigit_of_mem_natDigits hmem) (by decide)
  · rw [if_neg hm, if_neg hm'] at h
    have := natDigits_inj h
    omega

/-- Character form of the base feature-release key "%d.%d". -/
def keyChars (m f : Int) : List Char := intChars m ++ '.' :: intChars f

theorem splitDot_keyChars (m f : Int) :
    splitDotChars (keyChars m f) = [intChars m, intChars f] := by
  rw [keyChars, splitDotChars_append _ (dot_not_mem_intChars m),
    splitDotChars_of_not_mem (dot_not_mem_intChars f)]

theorem keyChars_inj {m f m' f' : Int} (h : keyChars m f = keyChars m' f') :
    m = m' ∧ f = f' := by
  have h1 := congrArg splitDotChars h
  rw [splitDot_keyChars, splitDot_keyChars] at h1
  obtain ⟨hm, hf⟩ := List.cons.inj h1
  obtain ⟨hf, -⟩ := List.cons.inj hf
  exact ⟨intChars_inj hm, intChars_inj hf⟩

theorem baseKey_data (m f : Int) : (intStr m ++ "." ++ intStr f).data = keyChars m f := by
  simp [intStr, keyChars, String.data_append]

/-- The base key determines its components: equality with any string whose
data splits as two char lists gives back the components through Atoi. -/
theorem keyChars_eq_iff (m f : Int) (s : String) :
    intStr m ++ "." ++ intStr f = s ↔ keyChars m f = s.data := by
  rw [← baseKey_data m f]
  exact ⟨fun h => h ▸ rfl, fun h => String.ext h⟩

theorem baseKey_eq_concrete {m f m₀ f₀ : Int} (s : String)
    (hs : keyChars m₀ f₀ = s.data) (h : intStr m ++ "." ++ intStr f = s) :
    m = m₀ ∧ f = f₀ := by
  rw [keyChars_eq_iff, ← hs] at h
  exact keyChars_inj h

theorem baseKey_ne_gpkey (m f : Int) (s : String) (l₁ l₂ : List Char) (g : Char)
    (hsplit : splitDotChars s.data = [l₁, l₂]) (hg : g ∈ l₂) (hgd : g.isDigit = false)
    (hgm : g ≠ '-') :
    intStr m ++ "." ++ intStr f ≠ s := by
  intro h
  rw [keyChars_eq_iff] at h
  have h1 := congrArg splitDotChars h
  rw [splitDot_keyChars, hsplit] at h1
  obtain ⟨-, hf⟩ := List.cons.inj h1
  obtain ⟨hf, -⟩ := List.cons.inj hf
  have hmem : g ∈ intChars f := by
    rw [hf]
    exact hg
  rcases intChars_mem hmem with hd | hm2
  · rw [hgd] at hd
    exact Bool.false_ne_true hd
  · exact hgm hm2

theorem baseKey_ne_concrete {m f : Int} (m₀ f₀ : Int) (s : String)
    (hs : keyChars m₀ f₀ = s.data) (hne : ¬(m = m₀ ∧ f = f₀)) :
    intStr m ++ "." ++ intStr f ≠ s :=
  fun h => hne (baseKey_eq_concrete s hs h)

/-- Under the legacy precondition (version earlier than 8.1) the
feature-release key misses every patch table entry, isGlobalProtect or
not. -/
theorem lookupMPV_legacy_none {m f : Int} (hm : m < 8 ∨ (m = 8 ∧ f < 1)) (gp : Bool) :
    lookupMPV (featureReleaseKey m f gp) = none := by
  have h102 : intStr m ++ "." ++ intStr f ≠ "10.2" :=
    baseKey_ne_concrete 10 2 _ (by decide) (by rintro ⟨rfl, -⟩; omega)
  have h110 : intStr m ++ "." ++ intStr f ≠ "11.0" :=
    baseKey_ne_concrete 11 0 _ (by decide) (by rintro ⟨rfl, -⟩; omega)
  have h111 : intStr m ++ "." ++ intStr f ≠ "11.1" :=
    baseKey_ne_concrete 11 1 _ (by decide) (by rintro ⟨rfl, -⟩; omega)
  have hkey : featureReleaseKey m f gp = intStr m ++ "." ++ intStr f := by
    rw [featureReleaseKey, if_neg]
    rintro ⟨-, h | h | h⟩
    · exact h102 h
    · exact h110 h
    · exact h111 h
  rw [hkey, lookupMPV]
  rw [List.find?_eq_none.mpr, Option.map_none']
  intro p hp
  simp only [MinimumPatchedVersions, List.mem_cons, List.not_mem_nil, or_false] at hp
  rcases hp with rfl | rfl | rfl | rfl | rfl | rfl | rfl | rfl | rfl | rfl | rfl <;>
    simp only [decide_eq_true_eq]
  · exact fun h => baseKey_ne_concrete 8 1 _ (by decide) (by rintro ⟨rfl, rfl⟩; omega) h.symm
  · exact fun h => baseKey_ne_concrete 9 0 _ (by decide) (by rintro ⟨rfl, -⟩; omega) h.symm
  · exact fun h => baseKey_ne_concrete 9 1 _ (by decide) (by rintro ⟨rfl, -⟩; omega) h.symm
  · exact fun h => baseKey_ne_concrete 10 0 _ (by decide) (by rintro ⟨rfl, -⟩; omega) h.symm
  · exact fun h => baseKey_ne_concrete 10 1 _ (by decide) (by rintro ⟨rfl, -⟩; omega) h.symm
  · exact fun h => h102 h.symm
  · exact fun h =>
      baseKey_ne_gpkey m f _ ['1', '0'] ['2', '-', 'g', 'p'] 'g' (by decide) (by decide)
        (by decide) (by decide) h.symm
  · exact fun h => h110 h.symm
  · exact fun h =>
      baseKey_ne_gpkey m f _ ['1', '1'] ['0', '-', 'g', 'p'] 'g' (by decide) (by decide)
        (by decide) (by decide) h.symm
  · exact fun h => h111 h.symm
  · exact fun h =>
      baseKey_ne_gpkey m f _ ['1', '1'] ['1', '-', 'g', 'p'] 'g' (by decide) (by decide)
        (by decide) (by decide) h.symm

/-! Behaviour of the classifier on its three structural branches. -/

theorem isAffectedVersion_ceiling {device : Device} (gp : Bool)
    (h : deviceMajor device > 11 ∨ (deviceMajor device = 11 ∧ deviceFeature device ≥ 2)) :
    IsAffectedVersion device gp = .ok (false, "") := by
  rw [IsAffectedVersion, if_pos h]

theorem isAffectedVersion_legacy {device : Device} (gp : Bool)
    (h : deviceMajor device < 8 ∨ (deviceMajor device = 8 ∧ deviceFeature device < 1)) :
    IsAffectedVersion device gp = .ok (true, "8.1.0") := by
  have hceil : ¬(deviceMajor device > 11 ∨ (deviceMajor device = 11 ∧ deviceFeature device ≥ 2)) := by
    omega
  rw [IsAffectedVersion, if_neg hceil]
  simp only [lookupMPV_legacy_none h gp]
  rw [if_pos h]

/-- The only error IsAffectedVersion ever returns is the classify-time
unknown-feature-release message; in particular no parse error exists. -/
theorem isAffectedVersion_error_only_unknown :
    ∀ (device : Device) (gp : Bool) (e : String),
      IsAffectedVersion device gp = .error e →
      e = "unknown feature release: " ++
        featureReleaseKey (deviceMajor device) (deviceFeature device) gp := by
  intro device gp e he
  by_cases hceil :
      deviceMajor device > 11 ∨ (deviceMajor device = 11 ∧ deviceFeature device ≥ 2)
  · rw [isAffectedVersion_ceiling gp hceil] at he
    exact absurd he (by simp)
  · have hunf : IsAffectedVersion device gp =
        match lookupMPV (featureReleaseKey (deviceMajor device) (deviceFeature device) gp) with
        | none =>
          if deviceMajor device < 8 ∨ (deviceMajor device = 8 ∧ deviceFeature device < 1) then
            .ok (true, "8.1.0")
          else
            .error ("unknown feature release: " ++
              featureReleaseKey (deviceMajor device) (deviceFeature device) gp)
        | some minVersions =>
          match scanMPV (featureReleaseKey (deviceMajor device) (deviceFeature device) gp)
              (deviceMaintenance device) (deviceHotfix device) minVersions with
          | some minUpdateRelease => .ok (true, minUpdateRelease)
          | none => .ok (false, "") := by
      rw [IsAffectedVersion, if_neg hceil]
    cases hlk : lookupMPV (featureReleaseKey (deviceMajor device) (deviceFeature device) gp) with
    | none =>
      rw [hlk] at hunf
      have hunf2 : IsAffectedVersion device gp =
          if deviceMajor device < 8 ∨ (deviceMajor device = 8 ∧ deviceFeature device < 1) then
            .ok (true, "8.1.0")
          else
            .error ("unknown feature release: " ++
              featureReleaseKey (deviceMajor device) (deviceFeature device) gp) := hunf
      by_cases hleg : deviceMajor device < 8 ∨ (deviceMajor device = 8 ∧ deviceFeature device < 1)
      · rw [if_pos hleg] at hunf2
        rw [hunf2] at he
        exact absurd he (by simp)
      · rw [if_neg hleg] at hunf2
        rw [hunf2] at he
        exact (Except.error.inj he).symm
    | some minVersions =>
      rw [hlk] at hunf
      have hunf2 : IsAffectedVersion device gp =
          match scanMPV (featureReleaseKey (deviceMajor device) (deviceFeature device) gp)
              (deviceMaintenance device) (deviceHotfix device) minVersions with
          | some minUpdateRelease => .ok (true, minUpdateRelease)
          | none => .ok (false, "") := hunf
      have hok : ∃ b s, IsAffectedVersion device gp = .ok (b, s) := by
        rw [hunf2]
        cases scanMPV (featureReleaseKey (deviceMajor device) (deviceFeature device) gp)
            (deviceMaintenance device) (deviceHotfix device) minVersions with
        | none => exact ⟨false, "", rfl⟩
        | some u => exact ⟨true, u, rfl⟩
      obtain ⟨b, s, hbs⟩ := hok
      rw [hbs] at he
      exact absurd he (by simp)

/-! SplitDevices helpers. -/

/-- Affectedness flag a device gets from the classifier (false on error;
the error case is only consulted after SplitDevices has aborted). -/
def classifiedAffected (d : Device) : Bool :=
  match IsAffectedVersion d false with
  | .ok (b, _) => b
  | .error _ => false

/-- Minimum update release string a device gets from the classifier. -/
def minUpdateOf (d : Device) : String :=
  match IsAffectedVersion d false with
  | .ok (_, s) => s
  | .error _ => ""

/-- First device of the list on which the classifier errs, with its error. -/
def firstSplitErr : List Device → Option (Device × String)
  | [] => none
  | d :: rest =>
    match IsAffectedVersion d false with
    | .error e => some (d, e)
    | .ok _ => firstSplitErr rest

/-- Annotated copy appended for an affected device. -/
def annAffected (d : Device) : Device := setKeyD d "minimumUpdateRelease" (minUpdateOf d)

/-- Annotated copy appended for an unaffected device. -/
def annUnaffected (d : Device) : Device := setKeyD d "result" "Not affected"

theorem splitDevicesGo_err :
    ∀ (l : List Device) (accA accU : List Device) (d : Device) (e : String),
      firstSplitErr l = some (d, e) →
      splitDevicesGo accA accU l =
        ([], [], some ("error checking device " ++ lookupD d "hostname" ++ ": " ++ e)) := by
  intro l
  induction l with
  | nil => intro accA accU d e h; exact absurd h (by simp [firstSplitErr])
  | cons d₀ rest ih =>
    intro accA accU d e h
    rw [firstSplitErr] at h
    rw [splitDevicesGo]
    cases hv : IsAffectedVersion d₀ false with
    | error e₀ =>
      rw [hv] at h
      obtain ⟨rfl, rfl⟩ := Prod.mk.injEq .. ▸ Option.some.inj h
      rfl
    | ok p =>
      rw [hv] at h
      obtain ⟨b, s⟩ := p
      by_cases hb : b = true
      · subst hb
        simp only [if_pos rfl]
        exact ih _ _ d e h
      · rw [Bool.not_eq_true] at hb
        subst hb
        simp only [Bool.false_eq_true, if_false]
        exact ih _ _ d e h

theorem splitDevicesGo_ok :
    ∀ (l : List Device) (accA accU : List Device),
      firstSplitErr l = none →
      splitDevicesGo accA accU l =
        (accA ++ (l.filter classifiedAffected).map annAffected,
         accU ++ (l.filter (fun d => ! classifiedAffected d)).map annUnaffected,
         none) := by
  intro l
  induction l with
  | nil => intro accA accU _; simp [splitDevicesGo]
  | cons d₀ rest ih =>
    intro accA accU h
    rw [firstSplitErr] at h
    rw [splitDevicesGo]
    cases hv : IsAffectedVersion d₀ false with
    | error e₀ => rw [hv] at h; exact absurd h (by simp)
    | ok p =>
      rw [hv] at h
      obtain ⟨b, s⟩ := p
      have haff : classifiedAffected d₀ = b := by rw [classifiedAffected, hv]
      have hmin : minUpdateOf d₀ = s := by rw [minUpdateOf, hv]
      have h' : firstSplitErr rest = none := h
      by_cases hb : b = true
      · subst hb
        simp [ih, h', List.filter_cons, haff, annAffected, hmin, List.append_assoc]
      · rw [Bool.not_eq_true] at hb
        subst hb
        simp [ih, h', List.filter_cons, haff, annUnaffected, List.append_assoc]

theorem lookupD_setKeyD_same (d : Device) (k v : String) : lookupD (setKeyD d k v) k = v := by
  simp [lookupD, setKeyD, List.find?]

theorem lookupD_setKeyD_other (d : Device) (k v k' : String) (h : k' ≠ k) :
    lookupD (setKeyD d k v) k' = lookupD d k' := by
  rw [lookupD, setKeyD, List.find?]
  rw [show (decide ((k, v).1 = k')) = false from decide_eq_false fun hc => h hc.symm]
  rfl

/-! Claim theorems. -/

/-- Claim C1: the C1 claim states that a device whose maintenance equals a
patch-table entry's maintenance and whose hotfix is at least the entry's
hotfix is classified not affected, the scan stopping at that entry, so that
10.1.6-h8 is not affected.  The code (src/utils/version.go lines 520-526)
instead keeps scanning past the maintenance-equal entry: on 10.1.6-h8 the
entry (6, 8) does not fire and the next entry (7, 1) does, so the device is
classified affected with minimum update 10.1.7-h1 — contradicting the
claim, the specification's stop rule, and the repository's own test that
expects 10.1.6-h8 to be unaffected. -/
theorem isAffectedVersion_at_10_1_6_h8 :
    IsAffectedVersion
      [("parsed_version_major", "10"), ("parsed_version_feature", "1"),
       ("parsed_version_maintenance", "6"), ("parsed_version_hotfix", "8")] false
      = .ok (true, "10.1.7-h1") := by decide

/-- Claim C5: a device at or beyond the 11.2 ceiling (major above 11, or
major 11 with feature at least 2) is classified not affected with empty
minimum-update string and no error, for either GlobalProtect flag. -/
theorem isAffectedVersion_ceiling_exempt :
    ∀ (device : Device) (gp : Bool),
      deviceMajor device > 11 ∨ (deviceMajor device = 11 ∧ deviceFeature device ≥ 2) →
      IsAffectedVersion device gp = .ok (false, "") :=
  fun _ gp h => isAffectedVersion_ceiling gp h

/-- Witness for C5: version 11.2.0 is classified not affected. -/
theorem isAffectedVersion_ceiling_exempt_witness :
    IsAffectedVersion
      [("parsed_version_major", "11"), ("parsed_version_feature", "2"),
       ("parsed_version_maintenance", "0"), ("parsed_version_hotfix", "0")] true
      = .ok (false, "") :=
  isAffectedVersion_ceiling_exempt
    [("parsed_version_major", "11"), ("parsed_version_feature", "2"),
     ("parsed_version_maintenance", "0"), ("parsed_version_hotfix", "0")] true (by decide)

/-- Claim C4: a device whose version predates 8.1 (major below 8, or major
8 with feature below 1) is classified affected with minimum update 8.1.0
and no error, for either GlobalProtect flag; its feature-release key is
indeed absent from the patch table. -/
theorem isAffectedVersion_legacy_fallback :
    ∀ (device : Device) (gp : Bool),
      deviceMajor device < 8 ∨ (deviceMajor device = 8 ∧ deviceFeature device < 1) →
      IsAffectedVersion device gp = .ok (true, "8.1.0") ∧
        lookupMPV (featureReleaseKey (deviceMajor device) (deviceFeature device) gp) = none :=
  fun _ gp h => ⟨isAffectedVersion_legacy gp h, lookupMPV_legacy_none h gp⟩

/-- Witness for C4: version 8.0.0 is classified affected with minimum
update 8.1.0. -/
theorem isAffectedVersion_legacy_fallback_witness :
    IsAffectedVersion
      [("parsed_version_major", "8"), ("parsed_version_feature", "0"),
       ("parsed_version_maintenance", "0"), ("parsed_version_hotfix", "0")] false
      = .ok (true, "8.1.0") :=
  (isAffectedVersion_legacy_fallback
    [("parsed_version_major", "8"), ("parsed_version_feature", "0"),
     ("parsed_version_maintenance", "0"), ("parsed_version_hotfix", "0")] false (by decide)).1

/-- Claim C6: IsAffectedVersion never returns a parse error for malformed
device attributes: its only error is the classify-time
unknown-feature-release message; each of the four parsed-version fields
that is missing (the map's zero value "") or not a decimal numeral is
individually read as 0; and in particular a device record carrying none of
the four fields falls to 0.0 and is classified affected with minimum
update 8.1.0 through the legacy fallback rather than erring. -/
theorem isAffectedVersion_defaults_missing_fields :
    (∀ (device : Device) (gp : Bool) (e : String),
      IsAffectedVersion device gp = .error e →
      e = "unknown feature release: " ++
        featureReleaseKey (deviceMajor device) (deviceFeature device) gp) ∧
    (∀ device : Device,
      isGoNumeral (lookupD device "parsed_version_major").data = false →
      deviceMajor device = 0) ∧
    (∀ device : Device,
      isGoNumeral (lookupD device "parsed_version_feature").data = false →
      deviceFeature device = 0) ∧
    (∀ device : Device,
      isGoNumeral (lookupD device "parsed_version_maintenance").data = false →
      deviceMaintenance device = 0) ∧
    (∀ device : Device,
      isGoNumeral (lookupD device "parsed_version_hotfix").data = false →
      deviceHotfix device = 0) ∧
    (∀ (device : Device) (gp : Bool),
      lookupD device "parsed_version_major" = "" →
      lookupD device "parsed_version_feature" = "" →
      lookupD device "parsed_version_maintenance" = "" →
      lookupD device "parsed_version_hotfix" = "" →
      IsAffectedVersion device gp = .ok (true, "8.1.0")) := by
  refine ⟨isAffectedVersion_error_only_unknown,
    fun device h => atoiFull_not_numeral _ h,
    fun device h => atoiFull_not_numeral _ h,
    fun device h => atoiFull_not_numeral _ h,
    fun device h => atoiFull_not_numeral _ h, ?_⟩
  intro device gp h1 _ _ _
  have hm : deviceMajor device = 0 := by
    rw [deviceMajor, h1]
    rfl
  exact isAffectedVersion_legacy gp (Or.inl (by rw [hm]; norm_num))

/-- Witness for C6: a device with a non-numeric maintenance field reads it
as 0, and a device record with none of the four fields is classified
affected with minimum update 8.1.0. -/
theorem isAffectedVersion_defaults_missing_fields_witness :
    deviceMaintenance [("parsed_version_maintenance", "6a")] = 0 ∧
    IsAffectedVersion [("hostname", "fw9")] false = .ok (true, "8.1.0") :=
  ⟨isAffectedVersion_defaults_missing_fields.2.2.2.1
      [("parsed_version_maintenance", "6a")] (by decide),
   isAffectedVersion_defaults_missing_fields.2.2.2.2.2
      [("hostname", "fw9")] false rfl rfl rfl rfl⟩

/-- Claim C2: IsAffectedVersion returns an error exactly when the device is
below the 11.2 ceiling, its feature-release key (with the GlobalProtect
suffix applied as constructed) is absent from the patch table, and the
legacy fallback does not cover it; the error is the unknown-feature-release
message, and an absent key below the ceiling is never classified as
ok (false, _). -/
theorem isAffectedVersion_error_iff_unknown_release :
    ∀ (device : Device) (gp : Bool),
      ((∃ e, IsAffectedVersion device gp = .error e) ↔
        (¬(deviceMajor device > 11 ∨ (deviceMajor device = 11 ∧ deviceFeature device ≥ 2)) ∧
         lookupMPV (featureReleaseKey (deviceMajor device) (deviceFeature device) gp) = none ∧
         ¬(deviceMajor device < 8 ∨ (deviceMajor device = 8 ∧ deviceFeature device < 1)))) ∧
      (∀ e, IsAffectedVersion device gp = .error e →
        e = "unknown feature release: " ++
          featureReleaseKey (deviceMajor device) (deviceFeature device) gp) ∧
      (¬(deviceMajor device > 11 ∨ (deviceMajor device = 11 ∧ deviceFeature device ≥ 2)) →
        lookupMPV (featureReleaseKey (deviceMajor device) (deviceFeature device) gp) = none →
        ∀ s, IsAffectedVersion device gp ≠ .ok (false, s)) := by
  intro device gp
  by_cases hceil :
      deviceMajor device > 11 ∨ (deviceMajor device = 11 ∧ deviceFeature device ≥ 2)
  · have hv : IsAffectedVersion device gp = .ok (false, "") := isAffectedVersion_ceiling gp hceil
    refine ⟨⟨fun ⟨e, he⟩ => absurd (hv ▸ he) (by simp), fun ⟨hc, _⟩ => absurd hceil hc⟩,
      fun e he => absurd (hv ▸ he) (by simp), fun hc => absurd hceil hc⟩
  · have hunf : IsAffectedVersion device gp =
        match lookupMPV (featureReleaseKey (deviceMajor device) (deviceFeature device) gp) with
        | none =>
          if deviceMajor device < 8 ∨ (deviceMajor device = 8 ∧ deviceFeature device < 1) then
            .ok (true, "8.1.0")
          else
            .error ("unknown feature release: " ++
              featureReleaseKey (deviceMajor device) (deviceFeature device) gp)
        | some minVersions =>
          match scanMPV (featureReleaseKey (deviceMajor device) (deviceFeature device) gp)
              (deviceMaintenance device) (deviceHotfix device) minVersions with
          | some minUpdateRelease => .ok (true, minUpdateRelease)
          | none => .ok (false, "") := by
      rw [IsAffectedVersion, if_neg hceil]
    cases hlk : lookupMPV (featureReleaseKey (deviceMajor device) (deviceFeature device) gp) with
    | none =>
      rw [hlk] at hunf
      by_cases hleg : deviceMajor device < 8 ∨ (deviceMajor device = 8 ∧ deviceFeature device < 1)
      · rw [if_pos hleg] at hunf
        refine ⟨⟨fun ⟨e, he⟩ => absurd (hunf ▸ he) (by simp), fun ⟨_, _, hl⟩ => absurd hleg hl⟩,
          fun e he => absurd (hunf ▸ he) (by simp), fun _ _ s => ?_⟩
        rw [hunf]
        simp
      · rw [if_neg hleg] at hunf
        refine ⟨⟨fun _ => ⟨hceil, rfl, hleg⟩, fun _ => ⟨_, hunf⟩⟩,
          fun e he => ?_, fun _ _ s => ?_⟩
        · have h2 := hunf ▸ he
          exact (Except.error.inj h2.symm)
        · rw [hunf]
          simp
    | some minVersions =>
      rw [hlk] at hunf
      have hunf2 : IsAffectedVersion device gp =
          match scanMPV (featureReleaseKey (deviceMajor device) (deviceFeature device) gp)
              (deviceMaintenance device) (deviceHotfix device) minVersions with
          | some minUpdateRelease => .ok (true, minUpdateRelease)
          | none => .ok (false, "") := hunf
      have hok : ∃ b s, IsAffectedVersion device gp = .ok (b, s) := by
        rw [hunf2]
        cases scanMPV (featureReleaseKey (deviceMajor device) (deviceFeature device) gp)
            (deviceMaintenance device) (deviceHotfix device) minVersions with
        | none => exact ⟨false, "", rfl⟩
        | some u => exact ⟨true, u, rfl⟩
      obtain ⟨b, s, hbs⟩ := hok
      exact ⟨⟨fun ⟨e, he⟩ => absurd (hbs ▸ he) (by simp),
          fun ⟨_, hl, _⟩ => absurd hl (by simp)⟩,
        fun e he => absurd (hbs ▸ he) (by simp), fun _ hl => absurd hl (by simp)⟩

/-- Witness for C2: version 8.2.0 is below the ceiling, its key 8.2 is
absent, and it is not legacy, so the classifier errs. -/
theorem isAffectedVersion_error_iff_unknown_release_witness :
    ∃ e, IsAffectedVersion
      [("parsed_version_major", "8"), ("parsed_version_feature", "2"),
       ("parsed_version_maintenance", "0"), ("parsed_version_hotfix", "0")] false
      = .error e :=
  (isAffectedVersion_error_iff_unknown_release
    [("parsed_version_major", "8"), ("parsed_version_feature", "2"),
     ("parsed_version_maintenance", "0"), ("parsed_version_hotfix", "0")] false).1.mpr
    ⟨by decide, by decide, by decide⟩

/-- Claim C3: SplitDevices aborts the whole batch on the first per-device
classifier error, returning nil partitions and an error that names the
offending device's hostname; when no device errs it returns both
partitions with no error. -/
theorem splitDevices_aborts_on_first_error :
    ∀ l : List Device,
      (∀ (d : Device) (e : String), firstSplitErr l = some (d, e) →
        SplitDevices l =
          ([], [], some ("error checking device " ++ lookupD d "hostname" ++ ": " ++ e))) ∧
      (firstSplitErr l = none → ∃ a u, SplitDevices l = (a, u, none)) :=
  fun l =>
    ⟨fun d e h => splitDevicesGo_err l [] [] d e h,
     fun h => ⟨_, _, splitDevicesGo_ok l [] [] h⟩⟩

/-- Witness for C3: a batch with an unknown-release device aborts with the
hostname in the message; the empty batch splits with no error. -/
theorem splitDevices_aborts_on_first_error_witness :
    SplitDevices
      [[("hostname", "fw1"), ("parsed_version_major", "8"), ("parsed_version_feature", "2"),
        ("parsed_version_maintenance", "0"), ("parsed_version_hotfix", "0")]]
      = ([], [], some "error checking device fw1: unknown feature release: 8.2") ∧
    (∃ a u, SplitDevices ([] : List Device) = (a, u, none)) :=
  ⟨(splitDevices_aborts_on_first_error
      [[("hostname", "fw1"), ("parsed_version_major", "8"), ("parsed_version_feature", "2"),
        ("parsed_version_maintenance", "0"), ("parsed_version_hotfix", "0")]]).1
      [("hostname", "fw1"), ("parsed_version_major", "8"), ("parsed_version_feature", "2"),
       ("parsed_version_maintenance", "0"), ("parsed_version_hotfix", "0")]
      "unknown feature release: 8.2" (by decide),
   (splitDevices_aborts_on_first_error ([] : List Device)).2 (by decide)⟩

/-- Claim C9: on a successful split, the affected partition is exactly the
affected devices in input order, each a copy with the single added key
minimumUpdateRelease, and the unaffected partition is exactly the other
devices in input order, each a copy with the single added key result set
to Not affected; the annotated copies keep every other key's original
value. -/
theorem splitDevices_partition_annotations :
    ∀ (l a u : List Device), SplitDevices l = (a, u, none) →
      a = (l.filter classifiedAffected).map annAffected ∧
      u = (l.filter (fun d => ! classifiedAffected d)).map annUnaffected ∧
      (∀ (d : Device) (k : String), k ≠ "minimumUpdateRelease" →
        lookupD (annAffected d) k = lookupD d k) ∧
      (∀ d : Device, lookupD (annAffected d) "minimumUpdateRelease" = minUpdateOf d) ∧
      (∀ (d : Device) (k : String), k ≠ "result" →
        lookupD (annUnaffected d) k = lookupD d k) ∧
      (∀ d : Device, lookupD (annUnaffected d) "result" = "Not affected") := by
  intro l a u h
  have herr : firstSplitErr l = none := by
    cases hfe : firstSplitErr l with
    | none => rfl
    | some p =>
      obtain ⟨d, e⟩ := p
      have h2 := splitDevicesGo_err l [] [] d e hfe
      rw [show splitDevicesGo [] [] l = SplitDevices l from rfl, h] at h2
      exact absurd (congrArg (fun t => t.2.2) h2) (by simp)
  have h2 := splitDevicesGo_ok l [] [] herr
  rw [show splitDevicesGo [] [] l = SplitDevices l from rfl, h] at h2
  obtain ⟨ha, hrest⟩ := Prod.mk.inj h2
  obtain ⟨hu, -⟩ := Prod.mk.inj hrest
  refine ⟨by rw [ha]; simp, by rw [hu]; simp, ?_, ?_, ?_, ?_⟩
  · exact fun d k hk => lookupD_setKeyD_other d _ _ k hk
  · exact fun d => lookupD_setKeyD_same d _ _
  · exact fun d k hk => lookupD_setKeyD_other d _ _ k hk
  · exact fun d => lookupD_setKeyD_same d _ _

/-- Witness for C9: a two-device batch (one affected 10.1.6-h2, one
unaffected 11.2.0) splits into the annotated singleton partitions. -/
theorem splitDevices_partition_annotations_witness :
    ([setKeyD [("parsed_version_major", "10"), ("parsed_version_feature", "1"),
        ("parsed_version_maintenance", "6"), ("parsed_version_hotfix", "2")]
        "minimumUpdateRelease" "10.1.6-h8"] : List Device) =
      (([[("parsed_version_major", "10"), ("parsed_version_feature", "1"),
          ("parsed_version_maintenance", "6"), ("parsed_version_hotfix", "2")],
         [("parsed_version_major", "11"), ("parsed_version_feature", "2"),
          ("parsed_version_maintenance", "0"), ("parsed_version_hotfix", "0")]].filter
        classifiedAffected).map annAffected) :=
  (splitDevices_partition_annotations
    [[("parsed_version_major", "10"), ("parsed_version_feature", "1"),
      ("parsed_version_maintenance", "6"), ("parsed_version_hotfix", "2")],
     [("parsed_version_major", "11"), ("parsed_version_feature", "2"),
      ("parsed_version_maintenance", "0"), ("parsed_version_hotfix", "0")]]
    [setKeyD [("parsed_version_major", "10"), ("parsed_version_feature", "1"),
      ("parsed_version_maintenance", "6"), ("parsed_version_hotfix", "2")]
      "minimumUpdateRelease" "10.1.6-h8"]
    [setKeyD [("parsed_version_major", "11"), ("parsed_version_feature", "2"),
      ("parsed_version_maintenance", "0"), ("parsed_version_hotfix", "0")]
      "result" "Not affected"]
    (by decide)).1

/-- Claim C7 counterexample: ParseVersion accepts a negative major segment,
returning it as a negative field with no error, against the claim that
negative segments are rejected and all fields of a successful parse are
non-negative. -/
theorem parseVersion_negative_accepted :
    ParseVersion "-1.0.0" = some ⟨-1, 0, 0, 0⟩ ∧ (-1 : Int) < 0 := by decide

/-- Claim C7 as amended: a successful parse of an input whose third
dot-segment has no "-h" part yields Hotfix 0; segments parse as signed
decimal integers, so an int 4-tuple within Go's 64-bit int range (negative
components included) formatted as major.feature.maintenance-hhotfix parses
back to itself rather than being rejected. -/
theorem parseVersion_signed_segments :
    (∀ (l : List Char) (v : Version), ParseVersionChars l = some v →
      (splitDashHChars ((splitDotChars l).getD 2 [])).length ≤ 1 → v.Hotfix = 0) ∧
    (∀ a b c d : Int, minGoInt ≤ a → a ≤ maxGoInt → minGoInt ≤ b → b ≤ maxGoInt →
      minGoInt ≤ c → c ≤ maxGoInt → minGoInt ≤ d → d ≤ maxGoInt →
      ParseVersion (formatVersion a b c d) = some ⟨a, b, c, d⟩) := by
  constructor
  · intro l v h hlen
    simp only [ParseVersionChars] at h
    by_cases h3 : (splitDotChars l).length < 3
    · rw [if_pos h3] at h
      exact absurd h (by simp)
    · rw [if_neg h3] at h
      cases h0 : atoiChars ((splitDotChars l).getD 0 []) with
      | none => rw [h0] at h; exact absurd h (by simp)
      | some major =>
        rw [h0] at h
        cases h1 : atoiChars ((splitDotChars l).getD 1 []) with
        | none => rw [h1] at h; exact absurd h (by simp)
        | some feature =>
          rw [h1] at h
          cases h2 : atoiChars ((splitDashHChars ((splitDotChars l).getD 2 [])).getD 0 []) with
          | none => rw [h2] at h; exact absurd h (by simp)
          | some maintenance =>
            rw [h2] at h
            have h' :
                (if (splitDashHChars ((splitDotChars l).getD 2 [])).length > 1 then
                  match atoiChars ((splitDashHChars ((splitDotChars l).getD 2 [])).getD 1 []) with
                  | none => none
                  | some hotfix =>
                    some (⟨major, feature, maintenance, hotfix⟩ : Version)
                else some (⟨major, feature, maintenance, 0⟩ : Version)) = some v := h
            rw [if_neg (by omega)] at h'
            rw [← Option.some.inj h']
  · exact fun a b c d ha1 ha2 hb1 hb2 hc1 hc2 hd1 hd2 =>
      parseVersion_formatVersion a b c d ha1 ha2 hb1 hb2 hc1 hc2 hd1 hd2

/-- Witness for C7: a plain version without hotfix parses with Hotfix 0,
and the signed round trip holds at the tuple (-1, 0, 0, 0). -/
theorem parseVersion_signed_segments_witness :
    (⟨10, 1, 6, 0⟩ : Version).Hotfix = 0 ∧
    ParseVersion (formatVersion (-1) 0 0 0) = some ⟨-1, 0, 0, 0⟩ :=
  ⟨parseVersion_signed_segments.1 "10.1.6".data ⟨10, 1, 6, 0⟩ (by decide) (by decide),
   parseVersion_signed_segments.2 (-1) 0 0 0 (by decide) (by decide) (by decide) (by decide)
     (by decide) (by decide) (by decide) (by decide)⟩

/-- Claim C10 counterexample: the claim quantifies over every 4-tuple of
non-negative integers, but a segment of 2 to the 63rd exceeds Go's int
range, so strconv.Atoi raises ErrRange and ParseVersion rejects the
formatted string instead of round-tripping it. -/
theorem parseVersion_roundtrip_overflow :
    ParseVersion (formatVersion ((9223372036854775808 : Nat) : Int) 0 0 0) = none := by decide

/-- Claim C10 as amended: formatting a 4-tuple of non-negative integers
each at most 9223372036854775807 (Go's 64-bit int maximum) as
major.feature.maintenance-hhotfix and parsing it back yields exactly the
original tuple. -/
theorem parseVersion_roundtrip :
    ∀ a b c d : Nat, a ≤ 9223372036854775807 → b ≤ 9223372036854775807 →
      c ≤ 9223372036854775807 → d ≤ 9223372036854775807 →
      ParseVersion (formatVersion (a : Int) (b : Int) (c : Int) (d : Int)) =
        some ⟨(a : Int), (b : Int), (c : Int), (d : Int)⟩ := by
  intro a b c d ha hb hc hd
  refine parseVersion_formatVersion a b c d ?_ ?_ ?_ ?_ ?_ ?_ ?_ ?_ <;>
    simp only [minGoInt, maxGoInt] <;> omega

/-- Witness for C10: the tuple (10, 1, 6, 8) round-trips. -/
theorem parseVersion_roundtrip_witness :
    ParseVersion (formatVersion ((10 : Nat) : Int) ((1 : Nat) : Int) ((6 : Nat) : Int)
      ((8 : Nat) : Int)) = some ⟨((10 : Nat) : Int), ((1 : Nat) : Int), ((6 : Nat) : Int),
      ((8 : Nat) : Int)⟩ :=
  parseVersion_roundtrip 10 1 6 8 (by norm_num) (by norm_num) (by norm_num) (by norm_num)

/-- Claim C8: IsAffectedFamily is true exactly when the family code is a
key of AffectedFamilies and the model is in that family's list; any family
code absent from AffectedFamilies yields false; family 220 with model
PA-220 yields true and family 400 with model PA-460 yields false. -/
theorem isAffectedFamily_iff_table :
    (∀ family model, (IsAffectedFamily family model = true ↔
      ∃ ms, lookupFam AffectedFamilies family = some ms ∧ model ∈ ms)) ∧
    (∀ family model, lookupFam AffectedFamilies family = none →
      IsAffectedFamily family model = false) ∧
    IsAffectedFamily "220" "PA-220" = true ∧ IsAffectedFamily "400" "PA-460" = false := by
  refine ⟨?_, ?_, by decide, by decide⟩
  · intro family model
    rw [IsAffectedFamily]
    cases hlk : lookupFam AffectedFamilies family with
    | none => simp
    | some ms => simp [List.contains, List.elem_iff]
  · intro family model h
    rw [IsAffectedFamily, h]

/-- Witness for C8: a family code absent from AffectedFamilies yields
false. -/
theorem isAffectedFamily_iff_table_witness :
    IsAffectedFamily "9999" "PA-220" = false :=
  isAffectedFamily_iff_table.2.1 "9999" "PA-220" (by decide)

/-!
Concrete scenario evaluations from the reference data, mirroring the
repository's test vectors: scenario 10.1.6-h2 (affected, 10.1.6-h8),
scenario 10.1.8-h1 (affected, 10.1.8-h7), the 11.2 ceiling, the pre-8.1
fallback, the unknown release 8.2, the GlobalProtect variant key, and the
family filter.  The first evaluation records the behaviour on 10.1.6-h8,
where the code keeps scanning past the maintenance-equal entry.
-/

section ScenarioChecks

example :
    IsAffectedVersion
      [("parsed_version_major", "10"), ("parsed_version_feature", "1"),
       ("parsed_version_maintenance", "6"), ("parsed_version_hotfix", "8")] false
      = .ok (true, "10.1.7-h1") := by decide

example :
    IsAffectedVersion
      [("parsed_version_major", "10"), ("parsed_version_feature", "1"),
       ("parsed_version_maintenance", "6"), ("parsed_version_hotfix", "2")] false
      = .ok (true, "10.1.6-h8") := by decide

example :
    IsAffectedVersion
      [("parsed_version_major", "10"), ("parsed_version_feature", "1"),
       ("parsed_version_maintenance", "8"), ("parsed_version_hotfix", "1")] false
      = .ok (true, "10.1.8-h7") := by decide

example :
    IsAffectedVersion
      [("parsed_version_major", "11"), ("parsed_version_feature", "2"),
       ("parsed_version_maintenance", "0"), ("parsed_version_hotfix", "0")] true
      = .ok (false, "") := by decide

example :
    IsAffectedVersion
      [("parsed_version_major", "8"), ("parsed_version_feature", "0"),
       ("parsed_version_maintenance", "0"), ("parsed_version_hotfix", "0")] false
      = .ok (true, "8.1.0") := by decide

example :
    IsAffectedVersion
      [("hostname", "fw1"), ("parsed_version_major", "8"), ("parsed_version_feature", "2"),
       ("parsed_version_maintenance", "0"), ("parsed_version_hotfix", "0")] false
      = .error "unknown feature release: 8.2" := by decide

example :
    IsAffectedVersion
      [("parsed_version_major", "10"), ("parsed_version_feature", "2"),
       ("parsed_version_maintenance", "3"), ("parsed_version_hotfix", "12")] true
      = .ok (true, "10.2-gp.3-h13") := by decide

example : IsAffectedVersion [] false = .ok (true, "8.1.0") := by decide

example : IsAffectedFamily "220" "PA-220" = true := by decide
example : IsAffectedFamily "400" "PA-460" = false := by decide

example :
    SplitDevices
      [[("hostname", "fw1"), ("parsed_version_major", "8"), ("parsed_version_feature", "2"),
        ("parsed_version_maintenance", "0"), ("parsed_version_hotfix", "0")]]
      = ([], [], some "error checking device fw1: unknown feature release: 8.2") := by decide

end ScenarioChecks

end PanosCdss
